import Mathlib

/-!
Verification of the GPU-occupancy subsystem of the Qytool repository
(`src/commands/occupy.py`), shallowly embedded in Lean 4.

Conventions used throughout this development:
* Python dictionaries whose values are looked up with `.get` become
  association lists or `Option`-valued fields.
* Python sets of strings become `List String` used only through membership;
  insertion is modelled by `insert_key`, which preserves set semantics.
* External `kubectl` queries are modelled by an explicit input describing the
  outcome of the query (non-zero exit, unparseable output, or parsed items).
* Randomness (`random.shuffle`, `random.randint`) is modelled by explicit
  parameters: the shuffled combination list and a supply of fallback numbers.
* Python integer formatting and parsing are modelled over ASCII decimal
  digits, which is what all names produced by the program consist of.
Leading underscores of the Python names are dropped (Lean reserves them).
-/

namespace Qytool

/-! ### Instance profiles (occupy.py lines 35-87) -/

/-- One entry of `GPU_INSTANCE_PROFILES` / `DEFAULT_GPU_PROFILE`:
`gpus`, `efa`, `gpu_model`, `description`. -/
structure GpuProfile where
  gpus : Nat
  efa : Nat
  gpu_model : String
  description : String
deriving DecidableEq, Repr

/-- The table `GPU_INSTANCE_PROFILES` from occupy.py, as an association list. -/
def GPU_INSTANCE_PROFILES : List (String × GpuProfile) :=
  [("ml.p5en.48xlarge", ⟨8, 16, "H200", "8×H200 (p5en)"⟩),
   ("ml.p5e.48xlarge", ⟨8, 32, "H200", "8×H200 (p5e)"⟩),
   ("ml.p5.48xlarge", ⟨8, 32, "H100", "8×H100 (p5)"⟩),
   ("ml.p4d.24xlarge", ⟨8, 4, "A100", "8×A100 (p4d)"⟩),
   ("ml.p4de.24xlarge", ⟨8, 4, "A100-80G", "8×A100-80G (p4de)"⟩),
   ("ml.g5.48xlarge", ⟨8, 1, "A10G", "8×A10G (g5)"⟩)]

/-- Constant `DEFAULT_GPU_PROFILE` from occupy.py (fallback for unknown types). -/
def DEFAULT_GPU_PROFILE : GpuProfile := ⟨8, 16, "Unknown", "Unknown GPU"⟩

/-- Function `_get_instance_profile`: `GPU_INSTANCE_PROFILES.get(instance_type, DEFAULT_GPU_PROFILE)`. -/
def get_instance_profile (instance_type : String) : GpuProfile :=
  (List.lookup instance_type GPU_INSTANCE_PROFILES).getD DEFAULT_GPU_PROFILE

/-! ### Node records (shape produced by `_get_gpu_nodes`, occupy.py lines 608-617) -/

/-- The node dictionary appended by `_get_gpu_nodes`.  `gpu_count` is an `Int`
because it is produced by the Python `int(...)` conversion. -/
structure NodeRec where
  name : String
  ready : Bool
  gpu_count : Int
  status : String
  instance_type : String
  gpu_model : String
  efa_count : Nat
  description : String
deriving DecidableEq, Repr

/-- The free-node computation shared by `_submit_occupy_jobs` (line 331) and
`_auto_occupy` (line 445):
`free_nodes = [n for n in all_nodes if n["name"] not in busy_nodes]`. -/
def free_nodes (all_nodes : List NodeRec) (busy_nodes : List String) : List NodeRec :=
  all_nodes.filter (fun n => !(busy_nodes.contains n.name))

/-! ### String ordering (Python `sorted` over strings: lexicographic by code point) -/

/-- Lexicographic comparison of strings by character code point, as Python
`sorted` uses on `str`. -/
def chars_le : List Char → List Char → Bool
  | [], _ => true
  | _ :: _, [] => false
  | c :: cs, d :: ds =>
    if c.toNat < d.toNat then true
    else if d.toNat < c.toNat then false
    else chars_le cs ds

/-- The order Python `sorted(...)` uses on the instance-type strings. -/
def pystr_le (a b : String) : Prop := chars_le a.data b.data = true

instance : DecidableRel pystr_le := fun a b => by
  unfold pystr_le; infer_instance

/-- Python `sorted` on a list of strings. -/
def py_sorted (l : List String) : List String := List.insertionSort pystr_le l

/-! ### Batch planning (occupy.py lines 341-363 and 450-462) -/

/-- Constant `DEFAULT_BATCH_SIZE` from occupy.py. -/
def DEFAULT_BATCH_SIZE : Nat := 4

/-- Set-style insertion used to model Python dict-key creation
(`setdefault`) and set insertion, preserving first-insertion order. -/
def insert_key (acc : List String) (t : String) : List String :=
  if t ∈ acc then acc else acc ++ [t]

/-- The keys of `free_by_type` after the grouping loop: the distinct
instance types of the free nodes in first-occurrence order. -/
def dict_keys (ts : List String) : List String := ts.foldl insert_key []

/-- One round of the planning loop:
`while remaining > 0: batch = min(DEFAULT_BATCH_SIZE, remaining); ...`.
The first argument is fuel; `remaining` itself is enough fuel because every
round removes at least one node. -/
def batch_sizes_aux : Nat → Nat → List Nat
  | 0, _ => []
  | fuel + 1, remaining =>
    if remaining = 0 then []
    else
      let b := min DEFAULT_BATCH_SIZE remaining
      b :: batch_sizes_aux fuel (remaining - b)

/-- The per-type batch sizes the planner emits for a type with `remaining`
free nodes. -/
def batch_sizes (remaining : Nat) : List Nat := batch_sizes_aux remaining remaining

/-- The `batch_plan` built by `_submit_occupy_jobs` (lines 355-363) and
`_auto_occupy` (lines 455-462): instance types sorted ascending, then the
greedy sizes for the number of free nodes of each type.  Elements are
`(batch_size, instance_type)` exactly as in the source. -/
def batch_plan (free : List NodeRec) : List (Nat × String) :=
  (py_sorted (dict_keys (free.map (fun n => n.instance_type)))).flatMap
    (fun itype =>
      (batch_sizes (free.countP (fun n => n.instance_type == itype))).map
        (fun b => (b, itype)))

/-- Modelled from the claim and spec section 4.3 (the reference greedy
partition): group the free nodes by instance type, process the distinct
types in ascending lexicographic order, and within each type emit batches
of size `min 4 remaining` until `remaining` is 0.  Written independently of
`batch_plan` (it deduplicates with `List.dedup` instead of the dict-key
fold) so that the equality of the two is a genuine statement. -/
def batch_plan_spec (free : List NodeRec) : List (Nat × String) :=
  (py_sorted ((free.map (fun n => n.instance_type)).dedup)).flatMap
    (fun itype =>
      (batch_sizes (free.countP (fun n => n.instance_type == itype))).map
        (fun b => (b, itype)))

/-- A minimal node value used for concrete scenarios; only the instance type
matters to the planner. -/
def mk_node (name itype : String) : NodeRec :=
  ⟨name, true, 8, "Ready", itype, "H100", 32, "8×H100 (p5)"⟩

/-! ### Claims C1, C2, C6 -/

/-- A NotReady GPU node, used to refute claim C1 as stated. -/
def c1_node : NodeRec :=
  ⟨"gpu-node-a", false, 8, "NotReady", "ml.p5.48xlarge", "H100", 32, "8×H100 (p5)"⟩

/-! ### Identity generation (`_generate_random_job_names`, occupy.py lines 725-763) -/

/-- Constant `MODEL_NAMES` from occupy.py. -/
def MODEL_NAMES : List String := ["qwen3", "qwen25"]

/-- Constant `TASK_TYPES` from occupy.py. -/
def TASK_TYPES : List String := ["retool", "search", "swebench"]

/-- The cross product of models and tasks built at lines 728-733.  The
lowercasing and the dot and underscore replacements performed there are
identities on the fixed model and task names, so they are omitted. -/
def all_combos : List (String × String) :=
  MODEL_NAMES.flatMap (fun m => TASK_TYPES.map (fun t => (m, t)))

/-- ASCII decimal digit test (the names the generator scans and produces
consist of ASCII characters; `\d` of the Python pattern is modelled as the
ASCII digits). -/
def is_dig (c : Char) : Bool := 48 ≤ c.toNat && c.toNat ≤ 57

/-- Python `int` on a string of decimal digits (`int(m.group(1))`). -/
def pyint_digits (ds : List Char) : Nat :=
  ds.foldl (fun a c => a * 10 + (c.toNat - 48)) 0

/-- Decimal rendering of a natural number, most significant digit first.
The first argument is fuel; `n + 1` is always enough because the argument
is divided by ten at every step. -/
def nat_repr_aux : Nat → Nat → List Char
  | 0, _ => []
  | fuel + 1, n =>
    if n < 10 then [Char.ofNat (48 + n)]
    else nat_repr_aux fuel (n / 10) ++ [Char.ofNat (48 + n % 10)]

/-- Decimal rendering of a natural number (Python `str`/`d` formatting). -/
def nat_repr (n : Nat) : String := ⟨nat_repr_aux (n + 1) n⟩

/-- Python `f"{n:02d}"`: decimal, left-zero-padded to at least two
characters. -/
def py_format02 (n : Nat) : String :=
  if n < 10 then ⟨'0' :: (nat_repr n).data⟩ else nat_repr n

/-- Drop an expected leading character sequence; `none` when the input does
not start with it.  Used to model the anchored match of
`rf"^{re.escape(prefix)}-(\d+)$"`. -/
def strip_pre : List Char → List Char → Option (List Char)
  | [], rest => some rest
  | _ :: _, [] => none
  | p :: ps, c :: cs => if c = p then strip_pre ps cs else none

/-- The sequence number of `name` under `pre`:
`re.match(rf"^{re.escape(prefix)}-(\d+)$", name)` followed by
`int(m.group(1))`, or `none` when the pattern does not match. -/
def seq_of (pre name : String) : Option Nat :=
  match strip_pre (pre ++ "-").data name.data with
  | some rest =>
    if rest ≠ [] ∧ rest.all is_dig then some (pyint_digits rest) else none
  | none => none

/-- The scan at lines 747-751: the maximum sequence number used under `pre`
in the working set (0 when none matches). -/
def max_seq (pre : String) (used : List String) : Nat :=
  used.foldl (fun m nm => match seq_of pre nm with | some v => max m v | none => m) 0

/-- The combination the inner loop reads at line 743:
`combos[combo_idx % len(combos)]`. -/
def combo_at (combos : List (String × String)) (i : Nat) : String × String :=
  combos.getD (i % combos.length) ("", "")

/-- Line 746: `prefix = f"run-{model}-{task}-{date_str}"`. -/
def pre_of (mt : String × String) (date_str : String) : String :=
  "run-" ++ mt.1 ++ "-" ++ mt.2 ++ "-" ++ date_str

/-- The candidate proposed at line 752: the prefix of the current
combination followed by the zero-padded successor of the maximum used
sequence number. -/
def candidate_name (combos : List (String × String)) (idx : Nat) (date_str : String)
    (used : List String) : String :=
  let pre := pre_of (combo_at combos idx) date_str
  pre ++ "-" ++ py_format02 (max_seq pre used + 1)

/-- The inner `while attempts < len(combos) * 100` loop (lines 741-757):
try the candidate of the current combination; on a collision with the
working set move to the next combination.  Returns the found name together
with the advanced combination index, or `none` when the attempt budget
(the last argument) is exhausted. -/
def find_name (combos : List (String × String)) (date_str : String)
    (used : List String) : Nat → Nat → Option (String × Nat)
  | _, 0 => none
  | idx, fuel + 1 =>
    let nm := candidate_name combos idx date_str used
    if nm ∈ used then find_name combos date_str used (idx + 1) fuel
    else some (nm, idx + 1)

/-- The outer `for _ in range(count)` loop (lines 738-762).  `names` and
`idx` thread the accumulated names and the persistent `combo_idx`; `rands`
models the stream of `random.randint(50, 99)` draws consumed by the
fallback branch at line 760. -/
def gen_names_aux (combos : List (String × String)) (date_str : String)
    (existing : List String) : Nat → List String → Nat → List Nat → List String
  | 0, names, _, _ => names
  | k + 1, names, idx, rands =>
    match find_name combos date_str (existing ++ names) idx (combos.length * 100) with
    | some (nm, idx2) => gen_names_aux combos date_str existing k (names ++ [nm]) idx2 rands
    | none =>
      gen_names_aux combos date_str existing k
        (names ++ ["run-qwen3-retool-" ++ date_str ++ "-" ++ py_format02 (rands.headD 50)])
        idx rands.tail

/-- Function `_generate_random_job_names(count, date_str, existing_names)`.  The
shuffled combination list and the fallback random draws are explicit
parameters (see the module comment). -/
def generate_random_job_names (combos : List (String × String)) (rands : List Nat)
    (count : Nat) (date_str : String) (existing_names : List String) : List String :=
  gen_names_aux combos date_str existing_names count [] 0 rands

/-- Decidable form of the claimed name format: `nm` is some
`run-model-task-date-NN` with the model and task from the fixed sets and
`NN` exactly two digits. -/
def matches_two_digit_form (date_str nm : String) : Bool :=
  all_combos.any (fun mt =>
    match strip_pre ((pre_of mt date_str) ++ "-").data nm.data with
    | some rest => rest.length == 2 && rest.all is_dig
    | none => false)

/-! ### Manifest builder (`_build_occupy_yaml`, occupy.py lines 827-975)

The builder is a pure data transformation ending in `yaml.dump`; the
embedding models the `pytorchjob` dictionary it constructs.  The long
startup command strings, the volume/mount lists and the environment list of
the source are invariant data shared verbatim by both containers; they are
represented by the role string that is the only varying part
(`occupy_cmd.format(role=...)`, lines 834-867). -/

/-- The `resources` dictionary (lines 895-898): identical requests and
limits, each carrying the GPU and EFA quantities. -/
structure ResourceQty where
  gpu : Nat
  efa : Nat
deriving DecidableEq, Repr

/-- Requests and limits of one container. -/
structure ContainerResources where
  requests : ResourceQty
  limits : ResourceQty
deriving DecidableEq, Repr

/-- One container spec of the manifest.  `ports` keeps the coordinator
port list (lines 907-913); `role` stands for the role-formatted startup
command. -/
structure OccContainer where
  name : String
  image : String
  ports : List (Nat × String)
  resources : ContainerResources
  role : String
deriving DecidableEq, Repr

/-- One replica group of `pytorchReplicaSpecs`. -/
structure ReplicaSpec where
  replicas : Nat
  restartPolicy : String
  nodeSelector : String × String
  container : OccContainer
deriving DecidableEq, Repr

/-- The `pytorchjob` dictionary (lines 936-973).  `nspace` is the
`namespace` field (a Lean keyword). -/
structure PyTorchJob where
  name : String
  nspace : String
  nprocPerNode : String
  master : ReplicaSpec
  worker : Option ReplicaSpec
deriving DecidableEq, Repr

/-- The container image at line 900. -/
def OCCUPY_IMAGE : String :=
  "054486717055.dkr.ecr.ap-southeast-3.amazonaws.com/youtu-agent:agent-lightning-0.2.2-1218-aws"

/-- Function `_build_occupy_yaml(job_name, namespace, worker_replicas, instance_type)`
up to serialization. -/
def build_occupy_yaml (job_name nspace : String) (worker_replicas : Nat)
    (instance_type : String) : PyTorchJob :=
  let profile := get_instance_profile instance_type
  let gpu_count := profile.gpus
  let efa_count := profile.efa
  let resources : ContainerResources :=
    ⟨⟨gpu_count, efa_count⟩, ⟨gpu_count, efa_count⟩⟩
  let master_container : OccContainer :=
    { name := "pytorch"
      image := OCCUPY_IMAGE
      ports := [(6379, "gcs-server"), (8265, "dashboard"), (10001, "client"),
        (8000, "serve"), (8080, "metrics")]
      resources := resources
      role := "Master" }
  let worker_container : OccContainer :=
    { name := "pytorch"
      image := OCCUPY_IMAGE
      ports := []
      resources := resources
      role := "Worker" }
  let node_selector := ("node.kubernetes.io/instance-type", instance_type)
  let base : PyTorchJob :=
    { name := job_name
      nspace := nspace
      nprocPerNode := nat_repr gpu_count
      master :=
        { replicas := 1
          restartPolicy := "OnFailure"
          nodeSelector := node_selector
          container := master_container }
      worker := none }
  if worker_replicas > 0 then
    { base with
      worker := some
        ({ replicas := worker_replicas
           restartPolicy := "OnFailure"
           nodeSelector := node_selector
           container := worker_container }) }
  else base

/-! ### Cluster inventory reads (`_get_gpu_nodes` lines 569-620,
`_get_busy_nodes` lines 623-646)

`run_kubectl` (utils/kube.py) returns `(rc, stdout, stderr)` and maps a
timeout to `rc = 1`, so both a non-zero exit and a timeout reach the reader
as `rc != 0`; an undecodable document raises `json.JSONDecodeError`, which
the reader catches.  A query outcome is therefore one of: non-zero exit,
decode failure, or a parsed item list. -/

/-- Outcome of one `kubectl get ... -o json` query. -/
inductive KubeQuery (α : Type) where
  | exitError : KubeQuery α
  | decodeError : KubeQuery α
  | ok : List α → KubeQuery α
deriving DecidableEq, Repr

/-- The exceptions that can escape the reader body.  Only
`json.JSONDecodeError` and `KeyError` are caught at lines 619 and 645;
`ValueError` from `int(...)` at line 589 is not. -/
inductive PyError where
  | valueError : PyError
deriving DecidableEq, Repr

/-- The fields of one node item that `_get_gpu_nodes` reads.  Label and
capacity lookups use `.get`, hence the `Option` fields; Kubernetes
quantities arrive as strings. -/
structure NodeItem where
  name : String
  instType : Option String
  betaInstType : Option String
  gpuCapacity : Option String
  conditions : List (String × String)
deriving DecidableEq, Repr

/-- The fields of one pod item that `_get_busy_nodes` reads; absent fields
arrive as the `.get` default `""`. -/
structure PodItem where
  phase : String
  nodeName : String
deriving DecidableEq, Repr

/-- Python `int(s)` on a string: an optional sign followed by one or more
decimal digits (surrounding whitespace and digit-group underscores are not
modelled); `none` models the `ValueError` raised otherwise. -/
def pyint (s : String) : Option Int :=
  match s.data with
  | [] => none
  | '-' :: ds =>
    if ds ≠ [] ∧ ds.all is_dig then some (-(pyint_digits ds : Int)) else none
  | '+' :: ds =>
    if ds ≠ [] ∧ ds.all is_dig then some ((pyint_digits ds : Int)) else none
  | ds =>
    if ds.all is_dig then some ((pyint_digits ds : Int)) else none

/-- Python `x or y` on strings (`labels.get(a) or labels.get(b) or d`,
lines 594-598): an absent or empty value falls through. -/
def py_or_str (a : Option String) (b : String) : String :=
  match a with
  | some s => if s = "" then b else s
  | none => b

/-- The capacity read `int(capacity.get("nvidia.com/gpu", 0))` at
line 589: an absent key defaults to 0, a present value is parsed by
`int`, whose `ValueError` propagates. -/
def parse_gpu_capacity (cap : Option String) : Except PyError Int :=
  match cap with
  | none => .ok 0
  | some s =>
    match pyint s with
    | some v => .ok v
    | none => .error PyError.valueError

/-- The body of the per-item loop of `_get_gpu_nodes` (lines 582-617):
parse the GPU capacity (propagating `ValueError`), skip zero-capacity
nodes, resolve the instance type and readiness, and attach the profile
fields. -/
def node_rec_of (item : NodeItem) : Except PyError (Option NodeRec) :=
  match parse_gpu_capacity item.gpuCapacity with
  | .error e => .error e
  | .ok gpu_count =>
    if gpu_count = 0 then .ok none
    else
      let instance_type := py_or_str item.instType (py_or_str item.betaInstType "unknown")
      let ready := item.conditions.any (fun c => c.1 == "Ready" && c.2 == "True")
      let profile := get_instance_profile instance_type
      .ok (some
        { name := item.name
          ready := ready
          gpu_count := gpu_count
          status := if ready then "Ready" else "NotReady"
          instance_type := instance_type
          gpu_model := profile.gpu_model
          efa_count := profile.efa
          description := profile.description })

/-- The item loop of `_get_gpu_nodes`, appending in order; an exception in
any iteration aborts the loop. -/
def gpu_nodes_of_items : List NodeItem → Except PyError (List NodeRec)
  | [] => .ok []
  | item :: rest =>
    match node_rec_of item with
    | .error e => .error e
    | .ok r =>
      match gpu_nodes_of_items rest with
      | .error e => .error e
      | .ok others =>
        match r with
        | some n => .ok (n :: others)
        | none => .ok others

/-- Function `_get_gpu_nodes`: empty list on a failed or undecodable query,
otherwise the item loop (whose `ValueError` escapes uncaught). -/
def get_gpu_nodes : KubeQuery NodeItem → Except PyError (List NodeRec)
  | .exitError => .ok []
  | .decodeError => .ok []
  | .ok items => gpu_nodes_of_items items

/-- The phase test of `_get_busy_nodes` at line 639. -/
def busy_phase (phase : String) : Bool :=
  phase == "Running" || phase == "Pending" || phase == "ContainerCreating"

/-- Function `_get_busy_nodes`: empty set on a failed or undecodable query,
otherwise the node names of pods in an occupying phase that have a
non-empty node assignment.  The Python set is modelled as a list inserted
without duplicates. -/
def get_busy_nodes : KubeQuery PodItem → List String
  | .exitError => []
  | .decodeError => []
  | .ok items =>
    items.foldl
      (fun busy p =>
        if busy_phase p.phase && p.nodeName != "" then insert_key busy p.nodeName
        else busy)
      []

/-! ### Auto-occupy return value and the patrol loop
(`_auto_occupy` lines 438-484, `_auto_patrol` lines 487-566)

`_auto_occupy` submits one manifest per batch; `apply_yaml` outcomes are
external, so they enter the model as one boolean per batch, in submission
order.  `_auto_patrol` runs `while True` with a `try/except Exception`
around each cycle body and an outer `except KeyboardInterrupt`; a run of
the loop is modelled as the fold of the per-cycle step over the finite
trace of cycle outcomes observed until the operator interrupt, after which
the final report carries the state. -/

/-- The return value of `_auto_occupy` (lines 472-484): the number of
successes among the per-batch submissions, and `total_nodes` — the sum of
ALL planned batch sizes — returned whenever at least one submission
succeeded, else 0. -/
def auto_occupy_return (plan : List (Nat × String)) (results : List Bool) : Nat :=
  let success_count := results.count true
  let total_nodes := (plan.map Prod.fst).sum
  if success_count > 0 then total_nodes else 0

/-- Modelled from the claim (the reference counter): the number of nodes
in batches whose own submission succeeded. -/
def successfully_occupied (plan : List (Nat × String)) (results : List Bool) : Nat :=
  (((plan.zip results).filter (fun pr => pr.2)).map (fun pr => pr.1.1)).sum

/-- What one patrol cycle reported: an exception caught by the per-cycle
handler (line 550), a fully-occupied cluster (free count 0, line 549), or
the `_auto_occupy` return value (line 542). -/
inductive CycleOutcome where
  | raised : CycleOutcome
  | noFree : CycleOutcome
  | occupied : Nat → CycleOutcome
deriving DecidableEq, Repr

/-- The loop state of `_auto_patrol`: `round_num` and `total_occupied`
(lines 525-526). -/
structure PatrolState where
  round_num : Nat
  total_occupied : Nat
deriving DecidableEq, Repr

/-- One iteration of the `while True` loop (lines 529-555): the round
counter always advances; the cumulative counter grows by the occupied
count only when it is positive (line 543), and is untouched on an
exception or when nothing is free. -/
def patrol_step (s : PatrolState) (c : CycleOutcome) : PatrolState :=
  { round_num := s.round_num + 1
    total_occupied :=
      match c with
      | .raised => s.total_occupied
      | .noFree => s.total_occupied
      | .occupied n => if n > 0 then s.total_occupied + n else s.total_occupied }

/-- A full patrol run over the trace of cycles observed before the
operator interrupt, starting from round 0 and total 0; the resulting state
is what the final report (lines 559-566) displays. -/
def patrol_run (trace : List CycleOutcome) : PatrolState :=
  trace.foldl patrol_step ⟨0, 0⟩

/-- The contribution of one cycle to the cumulative counter. -/
def cycle_added : CycleOutcome → Nat
  | .raised => 0
  | .noFree => 0
  | .occupied n => n

/-! ### Theorems -/

theorem char_toNat_inj {a b : Char} (h : a.toNat = b.toNat) : a = b := by
  cases a; cases b
  simp only [Char.toNat, UInt32.toNat] at h
  congr 1
  exact UInt32.ext h

theorem chars_le_total (a b : List Char) : chars_le a b = true ∨ chars_le b a = true := by
  induction a generalizing b with
  | nil => left; rfl
  | cons c cs ih =>
    cases b with
    | nil => right; rfl
    | cons d ds =>
      by_cases h1 : c.toNat < d.toNat
      · left; simp [chars_le, h1]
      · by_cases h2 : d.toNat < c.toNat
        · right; simp [chars_le, h2]
        · rcases ih ds with h | h
          · left; simp [chars_le, h1, h2, h]
          · right; simp [chars_le, h1, h2, h]

theorem chars_le_trans {a b c : List Char} (hab : chars_le a b = true)
    (hbc : chars_le b c = true) : chars_le a c = true := by
  induction a generalizing b c with
  | nil => rfl
  | cons x xs ih =>
    cases b with
    | nil => simp [chars_le] at hab
    | cons y ys =>
      cases c with
      | nil => simp [chars_le] at hbc
      | cons z zs =>
        simp only [chars_le] at hab hbc ⊢
        by_cases hxy : x.toNat < y.toNat
        · by_cases hyz : y.toNat < z.toNat
          · rw [if_pos (Nat.lt_trans hxy hyz)]
          · by_cases hzy : z.toNat < y.toNat
            · rw [if_neg hyz, if_pos hzy] at hbc; exact absurd hbc (by simp)
            · rw [if_pos (by omega : x.toNat < z.toNat)]
        · by_cases hyx : y.toNat < x.toNat
          · rw [if_neg hxy, if_pos hyx] at hab; exact absurd hab (by simp)
          · rw [if_neg hxy, if_neg hyx] at hab
            by_cases hyz : y.toNat < z.toNat
            · rw [if_pos (by omega : x.toNat < z.toNat)]
            · by_cases hzy : z.toNat < y.toNat
              · rw [if_neg hyz, if_pos hzy] at hbc; exact absurd hbc (by simp)
              · rw [if_neg hyz, if_neg hzy] at hbc
                rw [if_neg (by omega : ¬ x.toNat < z.toNat),
                  if_neg (by omega : ¬ z.toNat < x.toNat)]
                exact ih hab hbc

theorem chars_le_antisymm {a b : List Char} (hab : chars_le a b = true)
    (hba : chars_le b a = true) : a = b := by
  induction a generalizing b with
  | nil =>
    cases b with
    | nil => rfl
    | cons y ys => simp [chars_le] at hba
  | cons x xs ih =>
    cases b with
    | nil => simp [chars_le] at hab
    | cons y ys =>
      simp only [chars_le] at hab hba
      by_cases hxy : x.toNat < y.toNat
      · simp [hxy] at hba; omega
      · by_cases hyx : y.toNat < x.toNat
        · simp [hxy, hyx] at hab
        · have hx : x = y := char_toNat_inj (by omega)
          simp [hxy, hyx] at hab hba
          exact hx ▸ congrArg (x :: ·) (ih hab hba)

/-! #### Lemmas about the planner -/

theorem insert_key_mem (acc : List String) (t x : String) :
    x ∈ insert_key acc t ↔ x ∈ acc ∨ x = t := by
  unfold insert_key
  by_cases h : t ∈ acc
  · simp only [if_pos h]
    constructor
    · exact Or.inl
    · rintro (hx | rfl)
      · exact hx
      · exact h
  · simp [if_neg h]

theorem insert_key_nodup {acc : List String} (h : acc.Nodup) (t : String) :
    (insert_key acc t).Nodup := by
  unfold insert_key
  by_cases ht : t ∈ acc
  · simpa [if_pos ht]
  · simpa [if_neg ht, List.nodup_append] using ⟨h, fun hat => ht hat⟩

theorem dict_keys_aux_mem (ts : List String) (acc : List String) (x : String) :
    x ∈ ts.foldl insert_key acc ↔ x ∈ acc ∨ x ∈ ts := by
  induction ts generalizing acc with
  | nil => simp
  | cons t ts ih =>
    simp only [List.foldl_cons, ih, insert_key_mem, List.mem_cons]
    tauto

theorem dict_keys_mem (ts : List String) (x : String) :
    x ∈ dict_keys ts ↔ x ∈ ts := by
  simpa [dict_keys] using dict_keys_aux_mem ts [] x

theorem dict_keys_aux_nodup (ts : List String) {acc : List String} (h : acc.Nodup) :
    (ts.foldl insert_key acc).Nodup := by
  induction ts generalizing acc with
  | nil => simpa
  | cons t ts ih => exact ih (insert_key_nodup h t)

theorem dict_keys_nodup (ts : List String) : (dict_keys ts).Nodup :=
  dict_keys_aux_nodup ts List.nodup_nil

theorem py_sorted_sorted (l : List String) : List.Sorted pystr_le (py_sorted l) := by
  haveI : IsTotal String pystr_le := ⟨fun a b => chars_le_total a.data b.data⟩
  haveI : IsTrans String pystr_le := ⟨fun _ _ _ hab hbc => chars_le_trans hab hbc⟩
  exact List.sorted_insertionSort pystr_le l

theorem py_sorted_perm (l : List String) : (py_sorted l).Perm l :=
  List.perm_insertionSort pystr_le l

/-- Two deduplications of the same list sort to the same result. -/
theorem py_sorted_dict_keys_eq_dedup (ts : List String) :
    py_sorted (dict_keys ts) = py_sorted ts.dedup := by
  haveI : IsAntisymm String pystr_le :=
    ⟨fun _ _ hab hba => String.ext (chars_le_antisymm hab hba)⟩
  apply List.eq_of_perm_of_sorted (r := pystr_le) _ (py_sorted_sorted _) (py_sorted_sorted _)
  apply (py_sorted_perm (dict_keys ts)).trans
  refine List.Perm.trans ?_ (py_sorted_perm ts.dedup).symm
  rw [List.perm_ext_iff_of_nodup (dict_keys_nodup ts) (List.nodup_dedup ts)]
  intro a
  rw [dict_keys_mem, List.mem_dedup]

theorem batch_sizes_aux_sum {fuel r : Nat} (h : r ≤ fuel) :
    (batch_sizes_aux fuel r).sum = r := by
  induction fuel generalizing r with
  | zero => interval_cases r; simp [batch_sizes_aux]
  | succ fuel ih =>
    by_cases hr : r = 0
    · simp [batch_sizes_aux, hr]
    · have hb : min DEFAULT_BATCH_SIZE r ≤ r := Nat.min_le_right _ _
      have h1 : 1 ≤ min DEFAULT_BATCH_SIZE r := by
        simp [DEFAULT_BATCH_SIZE]; omega
      simp only [batch_sizes_aux, if_neg hr, List.sum_cons]
      rw [ih (by omega)]
      omega

theorem batch_sizes_sum (r : Nat) : (batch_sizes r).sum = r :=
  batch_sizes_aux_sum (Nat.le_refl r)

theorem batch_sizes_aux_bounds {fuel r : Nat} (h : r ≤ fuel) :
    ∀ b ∈ batch_sizes_aux fuel r, 1 ≤ b ∧ b ≤ 4 := by
  induction fuel generalizing r with
  | zero => interval_cases r; simp [batch_sizes_aux]
  | succ fuel ih =>
    intro b hb
    by_cases hr : r = 0
    · simp [batch_sizes_aux, hr] at hb
    · simp only [batch_sizes_aux, if_neg hr, List.mem_cons] at hb
      rcases hb with rfl | hb
      · constructor
        · simp [DEFAULT_BATCH_SIZE]; omega
        · simp [DEFAULT_BATCH_SIZE]
      · exact ih (by
          have := Nat.min_le_right DEFAULT_BATCH_SIZE r
          have h1 : 1 ≤ min DEFAULT_BATCH_SIZE r := by simp [DEFAULT_BATCH_SIZE]; omega
          omega) b hb

theorem batch_sizes_bounds (r : Nat) : ∀ b ∈ batch_sizes r, 1 ≤ b ∧ b ≤ 4 :=
  batch_sizes_aux_bounds (Nat.le_refl r)

/-- Sum of the sizes of the pairs with a given type produced from one type
group of the plan. -/
theorem filter_pairs_of_type (sizes : List Nat) (ty t : String) :
    (((sizes.map (fun b => (b, ty))).filter (fun p => p.2 == t)).map Prod.fst)
      = if ty = t then sizes else [] := by
  induction sizes with
  | nil => simp
  | cons b bs ih =>
    by_cases h : ty = t
    · subst h
      simp only [if_pos rfl] at ih ⊢
      simp [List.filter_cons, ih]
    · have hb : (ty == t) = false := by simpa using h
      simp only [if_neg h] at ih ⊢
      simp [List.filter_cons, hb, ih]

theorem plan_sum_filter (keys : List String) (cnt : String → Nat) (t : String)
    (hnd : keys.Nodup) :
    (((keys.flatMap (fun ty => (batch_sizes (cnt ty)).map (fun b => (b, ty)))).filter
        (fun p => p.2 == t)).map Prod.fst).sum
      = if t ∈ keys then cnt t else 0 := by
  induction keys with
  | nil => simp
  | cons k ks ih =>
    rcases List.nodup_cons.mp hnd with ⟨hk, hnd'⟩
    simp only [List.flatMap_cons, List.filter_append, List.map_append, List.sum_append,
      filter_pairs_of_type, ih hnd']
    by_cases h : k = t
    · subst h
      simp [hk, batch_sizes_sum, List.mem_cons]
    · have hne : t ≠ k := fun hh => h hh.symm
      simp [h, hne, List.mem_cons]

/-- Lookup misses every key that is not in the table. -/
theorem lookup_none_of_not_mem {β : Type} (k : String) (l : List (String × β))
    (h : k ∉ l.map Prod.fst) : List.lookup k l = none := by
  induction l with
  | nil => rfl
  | cons p ps ih =>
    simp only [List.map_cons, List.mem_cons] at h
    push_neg at h
    have hb : (k == p.1) = false := beq_eq_false_iff_ne.mpr h.1
    simpa [List.lookup, hb] using ih h.2

/-- Claim C1, as stated, is false on the code: with node list `[c1_node]`
(a node whose ready flag is false) and an empty busy set, the computed free
list contains the node even though its ready flag is not true — the code
filters only on busy-set membership (occupy.py lines 331 and 445). -/
theorem C1_counterexample :
    c1_node ∈ free_nodes [c1_node] [] ∧ c1_node.ready = false := by
  exact ⟨List.mem_filter.mpr ⟨List.mem_singleton_self _, rfl⟩, rfl⟩

/-- Claim C1 (amended): a node is in the computed free list if and only if it
is in the input node list and its name is not in the busy set; the ready
flag is not consulted. -/
theorem C1_free_iff (all_nodes : List NodeRec) (busy : List String) (n : NodeRec) :
    n ∈ free_nodes all_nodes busy ↔ n ∈ all_nodes ∧ n.name ∉ busy := by
  simp [free_nodes, List.mem_filter]

/-- Claim C2: the batch plan of occupy.py equals the reference greedy
partition (types ascending lexicographic, per-type batches of size
`min 4 remaining`); every batch is homogeneous with size between 1 and 4;
per-type sizes sum to the free count of the type; 10 free nodes of one type
give sizes 4, 4, 2; free counts of 5 and 3 over two types X < Y give
X batches 4 and 1 followed by the Y batch 3. -/
theorem C2_batch_plan (free : List NodeRec) :
    batch_plan free = batch_plan_spec free ∧
    (∀ p ∈ batch_plan free, 1 ≤ p.1 ∧ p.1 ≤ 4) ∧
    (∀ t, (((batch_plan free).filter (fun p => p.2 == t)).map Prod.fst).sum
        = free.countP (fun n => n.instance_type == t)) ∧
    batch_plan (List.replicate 10 (mk_node "n" "ml.p5.48xlarge"))
      = [(4, "ml.p5.48xlarge"), (4, "ml.p5.48xlarge"), (2, "ml.p5.48xlarge")] ∧
    batch_plan (List.replicate 5 (mk_node "n" "ml.g5.48xlarge")
        ++ List.replicate 3 (mk_node "m" "ml.p4d.24xlarge"))
      = [(4, "ml.g5.48xlarge"), (1, "ml.g5.48xlarge"), (3, "ml.p4d.24xlarge")] := by
  refine ⟨?_, ?_, ?_, by decide, by decide⟩
  · unfold batch_plan batch_plan_spec
    rw [py_sorted_dict_keys_eq_dedup]
  · intro p hp
    unfold batch_plan at hp
    rcases List.mem_flatMap.mp hp with ⟨ty, _, hmem⟩
    rcases List.mem_map.mp hmem with ⟨b, hb, rfl⟩
    exact batch_sizes_bounds _ b hb
  · intro t
    have hnd : (py_sorted (dict_keys (free.map (fun n => n.instance_type)))).Nodup :=
      ((py_sorted_perm _).nodup_iff).mpr (dict_keys_nodup _)
    unfold batch_plan
    rw [plan_sum_filter _ _ _ hnd]
    by_cases ht : t ∈ py_sorted (dict_keys (free.map (fun n => n.instance_type)))
    · simp [ht]
    · rw [if_neg ht]
      have hno : t ∉ free.map (fun n => n.instance_type) := by
        intro hc
        exact ht (((py_sorted_perm _).mem_iff).mpr ((dict_keys_mem _ _).mpr hc))
      symm
      rw [List.countP_eq_zero]
      intro n hn
      simp only [beq_iff_eq]
      intro he
      exact hno (he ▸ List.mem_map_of_mem (fun n => n.instance_type) hn)

/-- Witness for C2 at a concrete input: the batch `(4, ml.p5.48xlarge)` of
the ten-node scenario satisfies the size bounds, and the per-type sum there
is the free count 10. -/
theorem C2_batch_plan_witness :
    ((1:Nat) ≤ 4 ∧ (4:Nat) ≤ 4) ∧
    (((batch_plan (List.replicate 10 (mk_node "n" "ml.p5.48xlarge"))).filter
        (fun p => p.2 == "ml.p5.48xlarge")).map Prod.fst).sum
      = (List.replicate 10 (mk_node "n" "ml.p5.48xlarge")).countP
          (fun n => n.instance_type == "ml.p5.48xlarge") := by
  refine ⟨(C2_batch_plan (List.replicate 10 (mk_node "n" "ml.p5.48xlarge"))).2.1
      (4, "ml.p5.48xlarge") ?_,
    (C2_batch_plan (List.replicate 10 (mk_node "n" "ml.p5.48xlarge"))).2.2.1
      "ml.p5.48xlarge"⟩
  decide

/-- Claim C6: profile lookup is total (it is a plain function); every
instance-type string outside the profile table resolves to the fixed
default profile with 8 GPUs, 16 interconnect devices and GPU model
Unknown. -/
theorem C6_unknown_profile (t : String) (h : t ∉ GPU_INSTANCE_PROFILES.map Prod.fst) :
    get_instance_profile t = DEFAULT_GPU_PROFILE ∧
    DEFAULT_GPU_PROFILE.gpus = 8 ∧ DEFAULT_GPU_PROFILE.efa = 16 ∧
    DEFAULT_GPU_PROFILE.gpu_model = "Unknown" := by
  refine ⟨?_, rfl, rfl, rfl⟩
  unfold get_instance_profile
  rw [lookup_none_of_not_mem t _ h]
  rfl

/-- Witness for C6: the spec example string resolves to the default
profile. -/
theorem C6_unknown_profile_witness :
    get_instance_profile "totally-unknown-type" = DEFAULT_GPU_PROFILE ∧
    DEFAULT_GPU_PROFILE.gpus = 8 ∧ DEFAULT_GPU_PROFILE.efa = 16 ∧
    DEFAULT_GPU_PROFILE.gpu_model = "Unknown" :=
  C6_unknown_profile "totally-unknown-type" (by decide)

/-! #### Arithmetic facts about decimal rendering -/

theorem char_ofNat_digit_toNat {d : Nat} (h : d < 10) :
    (Char.ofNat (48 + d)).toNat = 48 + d := by
  interval_cases d <;> decide

theorem pyint_digits_append (ds : List Char) (c : Char) :
    pyint_digits (ds ++ [c]) = pyint_digits ds * 10 + (c.toNat - 48) := by
  simp [pyint_digits, List.foldl_append]

theorem nat_repr_aux_spec {fuel n : Nat} (h : n < fuel) :
    nat_repr_aux fuel n ≠ [] ∧ (nat_repr_aux fuel n).all is_dig = true ∧
      pyint_digits (nat_repr_aux fuel n) = n := by
  induction fuel generalizing n with
  | zero => omega
  | succ fuel ih =>
    by_cases hn : n < 10
    · refine ⟨by simp [nat_repr_aux, hn], ?_, ?_⟩
      · simp only [nat_repr_aux, if_pos hn, List.all_cons, List.all_nil, Bool.and_true]
        simp only [is_dig, char_ofNat_digit_toNat hn, Bool.and_eq_true, decide_eq_true_eq]
        omega
      · simp only [nat_repr_aux, if_pos hn]
        simp [pyint_digits, char_ofNat_digit_toNat hn]
    · have hd : n / 10 < fuel := by
        have := Nat.div_lt_self (by omega : 0 < n) (by omega : 1 < 10)
        omega
      obtain ⟨hne, hall, hval⟩ := ih hd
      have hm : n % 10 < 10 := Nat.mod_lt _ (by omega)
      refine ⟨by simp [nat_repr_aux, hn], ?_, ?_⟩
      · simp only [nat_repr_aux, if_neg hn, List.all_append, List.all_cons, List.all_nil,
          Bool.and_true, hall, Bool.true_and]
        simp only [is_dig, char_ofNat_digit_toNat hm, Bool.and_eq_true, decide_eq_true_eq]
        omega
      · simp only [nat_repr_aux, if_neg hn]
        rw [pyint_digits_append, hval, char_ofNat_digit_toNat hm]
        omega

theorem nat_repr_spec (n : Nat) :
    (nat_repr n).data ≠ [] ∧ (nat_repr n).data.all is_dig = true ∧
      pyint_digits (nat_repr n).data = n :=
  nat_repr_aux_spec (Nat.lt_succ_self n)

theorem pyint_digits_cons_zero (ds : List Char) :
    pyint_digits ('0' :: ds) = pyint_digits ds := by
  show List.foldl _ ((0 : Nat) * 10 + ('0'.toNat - 48)) ds = List.foldl _ (0 : Nat) ds
  rw [show (0 : Nat) * 10 + ('0'.toNat - 48) = 0 from by decide]

theorem py_format02_spec (n : Nat) :
    (py_format02 n).data ≠ [] ∧ (py_format02 n).data.all is_dig = true ∧
      pyint_digits (py_format02 n).data = n ∧ 2 ≤ (py_format02 n).data.length := by
  obtain ⟨hne, hall, hval⟩ := nat_repr_spec n
  by_cases h : n < 10
  · have hdata : (py_format02 n).data = '0' :: (nat_repr n).data := by
      simp [py_format02, if_pos h]
    refine ⟨by simp [hdata], ?_, ?_, ?_⟩
    · simp [hdata, List.all_cons, hall, is_dig]
    · rw [hdata, pyint_digits_cons_zero, hval]
    · rw [hdata]
      simp only [List.length_cons]
      have : (nat_repr n).data.length ≠ 0 := fun hz => hne (List.eq_nil_of_length_eq_zero hz)
      omega
  · have hdata : py_format02 n = nat_repr n := by simp [py_format02, if_neg h]
    refine ⟨hdata ▸ hne, hdata ▸ hall, hdata ▸ hval, ?_⟩
    -- n ≥ 10, so the plain decimal rendering has at least two digits
    rw [hdata]
    show 2 ≤ (nat_repr_aux (n + 1) n).length
    have hfe : n + 1 = (n + 1 - 1) + 1 := by omega
    rw [hfe]
    simp only [nat_repr_aux, if_neg (by omega : ¬ n < 10)]
    have hd : n / 10 < n + 1 - 1 := by
      have := Nat.div_lt_self (by omega : 0 < n) (by omega : 1 < 10)
      omega
    obtain ⟨hne', _, _⟩ := nat_repr_aux_spec hd
    have : (nat_repr_aux (n + 1 - 1) (n / 10)).length ≠ 0 :=
      fun hz => hne' (List.eq_nil_of_length_eq_zero hz)
    simp only [List.length_append, List.length_cons, List.length_nil]
    omega

/-! #### The first candidate never collides -/

theorem strip_pre_append (p r : List Char) : strip_pre p (p ++ r) = some r := by
  induction p with
  | nil => rfl
  | cons c cs ih => simp [strip_pre, ih]

theorem seq_of_candidate (pre : String) (v : Nat) :
    seq_of pre (pre ++ "-" ++ py_format02 v) = some v := by
  obtain ⟨hne, hall, hval⟩ := (py_format02_spec v).1, (py_format02_spec v).2.1, (py_format02_spec v).2.2.1
  unfold seq_of
  rw [show (pre ++ "-" ++ py_format02 v).data = (pre ++ "-").data ++ (py_format02 v).data by
    simp [String.data_append]]
  rw [strip_pre_append]
  obtain ⟨h1, h2, h3, _⟩ := py_format02_spec v
  simp [h1, h2, h3]

theorem le_max_seq_of_mem {pre nm : String} {used : List String} {v : Nat}
    (hmem : nm ∈ used) (hseq : seq_of pre nm = some v) : v ≤ max_seq pre used := by
  unfold max_seq
  have step : ∀ (l : List String) (init : Nat), init ≤
      l.foldl (fun m s => match seq_of pre s with | some w => max m w | none => m) init := by
    intro l
    induction l with
    | nil => intro init; exact Nat.le_refl _
    | cons s l ih =>
      intro init
      refine Nat.le_trans ?_ (ih _)
      cases hs : seq_of pre s with
      | none => simp only [hs]; exact Nat.le_refl _
      | some w => simp only [hs]; exact Nat.le_max_left _ _
  have main : ∀ (l : List String) (init : Nat), nm ∈ l →
      v ≤ l.foldl (fun m s => match seq_of pre s with | some w => max m w | none => m) init := by
    intro l
    induction l with
    | nil => intro init h; cases h
    | cons s l ih =>
      intro init h
      rcases List.mem_cons.mp h with rfl | h2
      · simp only [List.foldl_cons, hseq]
        exact Nat.le_trans (Nat.le_max_right init v) (step l _)
      · simp only [List.foldl_cons]
        exact ih _ h2
  exact main used 0 hmem

theorem candidate_not_mem (combos : List (String × String)) (idx : Nat)
    (date_str : String) (used : List String) :
    candidate_name combos idx date_str used ∉ used := by
  intro hmem
  set pre := pre_of (combo_at combos idx) date_str with hpre
  have hseq : seq_of pre (candidate_name combos idx date_str used) =
      some (max_seq pre used + 1) := by
    unfold candidate_name
    rw [← hpre]
    exact seq_of_candidate pre (max_seq pre used + 1)
  have := le_max_seq_of_mem hmem hseq
  omega

theorem find_name_succ (combos : List (String × String)) (date_str : String)
    (used : List String) (idx : Nat) {fuel : Nat} (hf : 0 < fuel) :
    find_name combos date_str used idx fuel =
      some (candidate_name combos idx date_str used, idx + 1) := by
  cases fuel with
  | zero => omega
  | succ fuel =>
    simp only [find_name]
    rw [if_neg (candidate_not_mem combos idx date_str used)]

theorem combo_at_mem {combos : List (String × String)} (h : combos ≠ []) (idx : Nat) :
    combo_at combos idx ∈ combos := by
  unfold combo_at
  have hlen : 0 < combos.length := List.length_pos.mpr h
  have hlt : idx % combos.length < combos.length := Nat.mod_lt _ hlen
  rw [List.getD_eq_getElem?_getD, List.getElem?_eq_getElem hlt, Option.getD_some]
  exact List.getElem_mem hlt

/-- With a non-empty combination list, one outer-loop round appends exactly
the first candidate and advances the combination index by one. -/
theorem gen_step {combos : List (String × String)} (hne : combos ≠ [])
    (date_str : String) (existing : List String) (k : Nat) (names : List String)
    (idx : Nat) (rands : List Nat) :
    gen_names_aux combos date_str existing (k + 1) names idx rands =
      gen_names_aux combos date_str existing k
        (names ++ [candidate_name combos idx date_str (existing ++ names)]) (idx + 1) rands := by
  have hfuel : 0 < combos.length * 100 := by
    have := List.length_pos.mpr hne
    omega
  simp only [gen_names_aux, find_name_succ _ _ _ _ hfuel]

/-- The outer loop only threads the fallback stream through; with a
non-empty combination list it never consumes it. -/
theorem gen_aux_rands_indep {combos : List (String × String)} (hne : combos ≠ [])
    (date_str : String) (existing : List String) :
    ∀ (k : Nat) (names : List String) (idx : Nat) (rands rands2 : List Nat),
      gen_names_aux combos date_str existing k names idx rands =
        gen_names_aux combos date_str existing k names idx rands2 := by
  intro k
  induction k with
  | zero => intro names idx rands rands2; rfl
  | succ k ih =>
    intro names idx rands rands2
    rw [gen_step hne, gen_step hne]
    exact ih _ _ _ _

/-- Invariant of the outer loop: it appends exactly `k` names, each the
first candidate of some combination against the working set at the time it
was produced, all fresh and mutually distinct. -/
theorem gen_aux_inv {combos : List (String × String)} (hne : combos ≠ [])
    (date_str : String) (existing : List String) :
    ∀ (k : Nat) (names : List String) (idx : Nat) (rands : List Nat),
      ∃ suffix : List String,
        gen_names_aux combos date_str existing k names idx rands = names ++ suffix ∧
        suffix.length = k ∧
        (∀ j (hj : j < suffix.length),
          ∃ mt, mt ∈ combos ∧
            suffix.get ⟨j, hj⟩ =
              pre_of mt date_str ++ "-" ++
                py_format02
                  (max_seq (pre_of mt date_str) (existing ++ names ++ suffix.take j) + 1)) ∧
        suffix.Nodup ∧
        (∀ nm ∈ suffix, nm ∉ existing ++ names) := by
  intro k
  induction k with
  | zero =>
    intro names idx rands
    exact ⟨[], by simp [gen_names_aux], rfl, fun j hj => absurd hj (by simp), List.nodup_nil,
      by simp⟩
  | succ k ih =>
    intro names idx rands
    rw [gen_step hne]
    set cand := candidate_name combos idx date_str (existing ++ names) with hcand
    obtain ⟨suffix, heq, hlen, hform, hnd, hfresh⟩ := ih (names ++ [cand]) (idx + 1) rands
    refine ⟨cand :: suffix, ?_, by simpa using hlen, ?_, ?_, ?_⟩
    · rw [heq]
      simp
    · intro j hj
      match j with
      | 0 =>
        refine ⟨combo_at combos idx, combo_at_mem hne idx, ?_⟩
        simp only [List.get, List.take_zero, List.append_nil]
        rw [hcand]
        rfl
      | j + 1 =>
        have hj' : j < suffix.length := by simpa using hj
        obtain ⟨mt, hmt, hval⟩ := hform j hj'
        refine ⟨mt, hmt, ?_⟩
        have hused : existing ++ names ++ (cand :: suffix).take (j + 1)
            = existing ++ (names ++ [cand]) ++ suffix.take j := by
          simp
        simp only [List.get, hused]
        exact hval
    · refine List.nodup_cons.mpr ⟨?_, hnd⟩
      intro hc
      exact hfresh cand hc (by simp)
    · intro nm hnm
      rcases List.mem_cons.mp hnm with rfl | hnm'
      · exact candidate_not_mem combos idx date_str (existing ++ names)
      · intro hmem
        exact hfresh nm hnm' (by simp only [List.append_assoc, List.mem_append] at hmem ⊢; tauto)

/-! ### Claims C3, C4, C10 -/

theorem all_combos_ne_nil_of_perm {combos : List (String × String)}
    (hperm : combos.Perm all_combos) : combos ≠ [] := by
  intro h
  rw [h] at hperm
  have := hperm.length_eq
  simp [all_combos, MODEL_NAMES, TASK_TYPES] at this

/-- Claim C3: for every shuffled combination order, fallback stream,
requested count of at least one, date string and existing-name set, the
generator returns exactly `count` names, without duplicates, none of which
is in the existing set. -/
theorem C3_name_uniqueness (combos : List (String × String)) (rands : List Nat)
    (count : Nat) (date_str : String) (existing : List String)
    (hperm : combos.Perm all_combos) (_hcount : 1 ≤ count) :
    (generate_random_job_names combos rands count date_str existing).length = count ∧
    (generate_random_job_names combos rands count date_str existing).Nodup ∧
    ∀ nm ∈ generate_random_job_names combos rands count date_str existing,
      nm ∉ existing := by
  have hne : combos ≠ [] := all_combos_ne_nil_of_perm hperm
  obtain ⟨suffix, heq, hlen, _, hnd, hfresh⟩ :=
    gen_aux_inv hne date_str existing count [] 0 rands
  unfold generate_random_job_names
  rw [heq]
  simp only [List.nil_append]
  refine ⟨hlen, hnd, fun nm hnm hmem => hfresh nm hnm ?_⟩
  simpa using hmem

/-- Witness for C3 at a concrete input. -/
theorem C3_name_uniqueness_witness :
    (generate_random_job_names all_combos [] 1 "0615"
        ["run-qwen3-retool-0615-01"]).length = 1 ∧
    (generate_random_job_names all_combos [] 1 "0615"
        ["run-qwen3-retool-0615-01"]).Nodup ∧
    ∀ nm ∈ generate_random_job_names all_combos [] 1 "0615"
        ["run-qwen3-retool-0615-01"],
      nm ∉ ["run-qwen3-retool-0615-01"] :=
  C3_name_uniqueness all_combos [] 1 "0615" ["run-qwen3-retool-0615-01"]
    (List.Perm.refl _) (by decide)

/-- Claim C10: the first candidate proposed for a request is never in the
working set, so the inner search succeeds on its very first attempt (for
any positive attempt budget, in particular `len(combos) * 100`), and the
generator output never depends on the randomized-fallback draws. -/
theorem C10_fallback_unreachable (combos : List (String × String)) (date_str : String)
    (used existing : List String) (idx fuel count : Nat) (rands rands2 : List Nat)
    (hne : combos ≠ []) (hf : 0 < fuel) :
    candidate_name combos idx date_str used ∉ used ∧
    find_name combos date_str used idx fuel =
      some (candidate_name combos idx date_str used, idx + 1) ∧
    generate_random_job_names combos rands count date_str existing =
      generate_random_job_names combos rands2 count date_str existing :=
  ⟨candidate_not_mem combos idx date_str used,
   find_name_succ combos date_str used idx hf,
   gen_aux_rands_indep hne date_str existing count [] 0 rands rands2⟩

/-- Witness for C10 at a concrete input. -/
theorem C10_fallback_unreachable_witness :
    candidate_name all_combos 0 "0615" ["run-qwen3-retool-0615-01"]
        ∉ ["run-qwen3-retool-0615-01"] ∧
    find_name all_combos "0615" ["run-qwen3-retool-0615-01"] 0 600 =
      some (candidate_name all_combos 0 "0615" ["run-qwen3-retool-0615-01"], 1) ∧
    generate_random_job_names all_combos [57] 1 "0615" [] =
      generate_random_job_names all_combos [93] 1 "0615" [] :=
  C10_fallback_unreachable all_combos "0615" ["run-qwen3-retool-0615-01"] []
    0 600 1 [57] [93] (by decide) (by decide)

/-- Claim C4, as stated, is false on the code: with the identity shuffle
and the single existing name `run-qwen3-retool-0615-99`, requesting one
name for date 0615 produces `run-qwen3-retool-0615-100`, whose sequence
field has three digits, not two. -/
theorem C4_counterexample :
    generate_random_job_names all_combos [] 1 "0615" ["run-qwen3-retool-0615-99"]
      = ["run-qwen3-retool-0615-100"] ∧
    matches_two_digit_form "0615" "run-qwen3-retool-0615-100" = false ∧
    all_combos.Perm all_combos :=
  ⟨by decide, by decide, List.Perm.refl _⟩

/-- Claim C4 (amended): every identity generated on the non-fallback path
(which is every identity, by C10) is
`run-model-task-date-NN` with the model/task pair drawn from the fixed
cross product and `NN` the decimal rendering of the maximum sequence number
already used under that prefix (in the existing names plus the names
generated earlier in the call) plus one, left-zero-padded to at least two
digits — exactly two only while the maximum stays below 99.  In particular
Scenario C holds: existing 01 and 02 under `run-qwen3-retool-0615` yield
`run-qwen3-retool-0615-03`. -/
theorem C4_name_format (combos : List (String × String)) (rands : List Nat)
    (count : Nat) (date_str : String) (existing : List String)
    (hperm : combos.Perm all_combos) :
    (∀ j (hj : j < (generate_random_job_names combos rands count date_str existing).length),
      ∃ mt, mt ∈ all_combos ∧
        (generate_random_job_names combos rands count date_str existing).get ⟨j, hj⟩ =
          pre_of mt date_str ++ "-" ++
            py_format02
              (max_seq (pre_of mt date_str)
                (existing ++
                  (generate_random_job_names combos rands count date_str existing).take j)
                + 1)) ∧
    (∀ v : Nat, 2 ≤ (py_format02 v).data.length ∧ (py_format02 v).data.all is_dig = true) ∧
    generate_random_job_names all_combos [] 1 "0615"
        ["run-qwen3-retool-0615-01", "run-qwen3-retool-0615-02"]
      = ["run-qwen3-retool-0615-03"] := by
  have hne : combos ≠ [] := all_combos_ne_nil_of_perm hperm
  obtain ⟨suffix, heq, hlen, hform, _, _⟩ :=
    gen_aux_inv hne date_str existing count [] 0 rands
  refine ⟨?_, ?_, by decide⟩
  · have heq' : generate_random_job_names combos rands count date_str existing = suffix := by
      unfold generate_random_job_names
      rw [heq]
      simp
    intro j hj
    have hj2 : j < suffix.length := by rw [heq'] at hj; exact hj
    obtain ⟨mt, hmt, hval⟩ := hform j hj2
    refine ⟨mt, hperm.mem_iff.mp hmt, ?_⟩
    rw [List.get_of_eq heq' ⟨j, hj⟩]
    refine hval.trans ?_
    rw [heq']
    simp
  · intro v
    exact ⟨(py_format02_spec v).2.2.2, (py_format02_spec v).2.1⟩

/-- Witness for C4 (amended) at a concrete input: the first name produced
against existing 01 and 02 under the qwen3-retool prefix. -/
theorem C4_name_format_witness :
    ∃ mt, mt ∈ all_combos ∧
      (generate_random_job_names all_combos [] 1 "0615"
          ["run-qwen3-retool-0615-01", "run-qwen3-retool-0615-02"]).get
          ⟨0, by decide⟩ =
        pre_of mt "0615" ++ "-" ++
          py_format02
            (max_seq (pre_of mt "0615")
              (["run-qwen3-retool-0615-01", "run-qwen3-retool-0615-02"] ++
                (generate_random_job_names all_combos [] 1 "0615"
                  ["run-qwen3-retool-0615-01", "run-qwen3-retool-0615-02"]).take 0)
              + 1) :=
  (C4_name_format all_combos [] 1 "0615"
    ["run-qwen3-retool-0615-01", "run-qwen3-retool-0615-02"]
    (List.Perm.refl _)).1 0 (by decide)

/-- Claim C5: with `worker_count = 0` the manifest has one coordinator
replica and no worker group at all; with `worker_count = k > 0` it
additionally has exactly one worker group with `k` replicas; and the
coordinator and worker containers carry identical GPU/EFA requests and
limits, all four quantities taken from the instance-type profile. -/
theorem C5_manifest_shape (job_name nspace : String) (k : Nat) (instance_type : String) :
    (build_occupy_yaml job_name nspace k instance_type).master.replicas = 1 ∧
    (k = 0 → (build_occupy_yaml job_name nspace k instance_type).worker = none) ∧
    (0 < k → ∃ w, (build_occupy_yaml job_name nspace k instance_type).worker = some w ∧
      w.replicas = k ∧
      w.container.resources =
        (build_occupy_yaml job_name nspace k instance_type).master.container.resources) ∧
    (build_occupy_yaml job_name nspace k instance_type).master.container.resources =
      ⟨⟨(get_instance_profile instance_type).gpus, (get_instance_profile instance_type).efa⟩,
       ⟨(get_instance_profile instance_type).gpus, (get_instance_profile instance_type).efa⟩⟩ := by
  have hm : (build_occupy_yaml job_name nspace k instance_type).master =
      { replicas := 1, restartPolicy := "OnFailure",
        nodeSelector := ("node.kubernetes.io/instance-type", instance_type),
        container :=
          { name := "pytorch", image := OCCUPY_IMAGE,
            ports := [(6379, "gcs-server"), (8265, "dashboard"), (10001, "client"),
              (8000, "serve"), (8080, "metrics")],
            resources := ⟨⟨(get_instance_profile instance_type).gpus,
                (get_instance_profile instance_type).efa⟩,
              ⟨(get_instance_profile instance_type).gpus,
                (get_instance_profile instance_type).efa⟩⟩,
            role := "Master" } } := by
    by_cases hk : 0 < k <;> simp [build_occupy_yaml, hk]
  refine ⟨by rw [hm], ?_, ?_, by rw [hm]⟩
  · intro h0
    subst h0
    simp [build_occupy_yaml]
  · intro hk
    refine ⟨⟨k, "OnFailure", ("node.kubernetes.io/instance-type", instance_type),
        ⟨"pytorch", OCCUPY_IMAGE, [],
          ⟨⟨(get_instance_profile instance_type).gpus, (get_instance_profile instance_type).efa⟩,
           ⟨(get_instance_profile instance_type).gpus, (get_instance_profile instance_type).efa⟩⟩,
          "Worker"⟩⟩, ?_, rfl, ?_⟩
    · simp [build_occupy_yaml, hk]
    · rw [hm]

/-- Witness for C5 at concrete inputs (a three-worker batch of a known
type). -/
theorem C5_manifest_shape_witness :
    (build_occupy_yaml "run-qwen3-retool-0615-01" "ns" 3 "ml.p5.48xlarge").master.replicas = 1 ∧
    ((3 : Nat) = 0 →
      (build_occupy_yaml "run-qwen3-retool-0615-01" "ns" 3 "ml.p5.48xlarge").worker = none) ∧
    ((0 : Nat) < 3 → ∃ w,
      (build_occupy_yaml "run-qwen3-retool-0615-01" "ns" 3 "ml.p5.48xlarge").worker = some w ∧
      w.replicas = 3 ∧
      w.container.resources =
        (build_occupy_yaml "run-qwen3-retool-0615-01" "ns" 3
          "ml.p5.48xlarge").master.container.resources) ∧
    (build_occupy_yaml "run-qwen3-retool-0615-01" "ns" 3
        "ml.p5.48xlarge").master.container.resources =
      ⟨⟨(get_instance_profile "ml.p5.48xlarge").gpus, (get_instance_profile "ml.p5.48xlarge").efa⟩,
       ⟨(get_instance_profile "ml.p5.48xlarge").gpus,
        (get_instance_profile "ml.p5.48xlarge").efa⟩⟩ :=
  C5_manifest_shape "run-qwen3-retool-0615-01" "ns" 3 "ml.p5.48xlarge"

theorem node_rec_of_nonzero {item : NodeItem} {n : NodeRec}
    (h : node_rec_of item = .ok (some n)) : n.gpu_count ≠ 0 := by
  unfold node_rec_of at h
  cases hc : parse_gpu_capacity item.gpuCapacity with
  | error e =>
    simp only [hc] at h
    cases h
  | ok g =>
    simp only [hc] at h
    by_cases hg : g = 0
    · rw [if_pos hg] at h
      simp at h
    · rw [if_neg hg] at h
      simp only [Except.ok.injEq, Option.some.injEq] at h
      rw [← h]
      simpa using hg

theorem gpu_nodes_nonzero : ∀ (items : List NodeItem) (l : List NodeRec),
    gpu_nodes_of_items items = .ok l → ∀ r ∈ l, r.gpu_count ≠ 0 := by
  intro items
  induction items with
  | nil =>
    intro l h r hr
    cases h
    cases hr
  | cons item rest ih =>
    intro l h r hr
    unfold gpu_nodes_of_items at h
    cases h1 : node_rec_of item with
    | error e =>
      simp only [h1] at h
      cases h
    | ok ro =>
      simp only [h1] at h
      cases h2 : gpu_nodes_of_items rest with
      | error e =>
        simp only [h2] at h
        cases h
      | ok others =>
        simp only [h2] at h
        cases ro with
        | none =>
          simp only [Except.ok.injEq] at h
          subst h
          exact ih _ h2 r hr
        | some n =>
          simp only [Except.ok.injEq] at h
          subst h
          rcases List.mem_cons.mp hr with rfl | hr2
          · exact node_rec_of_nonzero h1
          · exact ih _ h2 r hr2

theorem node_rec_of_ok_of_parsable {item : NodeItem}
    (hparse : ∀ s, item.gpuCapacity = some s → (pyint s).isSome = true) :
    ∃ ro, node_rec_of item = .ok ro := by
  unfold node_rec_of
  obtain ⟨g, hg⟩ : ∃ g, parse_gpu_capacity item.gpuCapacity = .ok g := by
    unfold parse_gpu_capacity
    cases hc : item.gpuCapacity with
    | none => exact ⟨0, rfl⟩
    | some s =>
      cases hp : pyint s with
      | none =>
        have hx := hparse s hc
        rw [hp] at hx
        simp at hx
      | some v => exact ⟨v, by simp [hp]⟩
  simp only [hg]
  by_cases h0 : g = 0
  · exact ⟨none, by rw [if_pos h0]⟩
  · exact ⟨some _, by rw [if_neg h0]⟩

theorem gpu_nodes_ok_of_parsable : ∀ (items : List NodeItem),
    (∀ item ∈ items, ∀ s, item.gpuCapacity = some s → (pyint s).isSome = true) →
    ∃ l, gpu_nodes_of_items items = .ok l := by
  intro items
  induction items with
  | nil => exact fun _ => ⟨[], rfl⟩
  | cons item rest ih =>
    intro hall
    obtain ⟨ro, h1⟩ := node_rec_of_ok_of_parsable
      (fun s hs => hall item (List.mem_cons_self _ _) s hs)
    obtain ⟨others, h2⟩ := ih (fun it hit s hs => hall it (List.mem_cons_of_mem _ hit) s hs)
    cases ro with
    | none => exact ⟨others, by simp [gpu_nodes_of_items, h1, h2]⟩
    | some n => exact ⟨n :: others, by simp [gpu_nodes_of_items, h1, h2]⟩

theorem busy_fold_mem (pods : List PodItem) (acc : List String) (nm : String) :
    nm ∈ pods.foldl
        (fun busy p =>
          if busy_phase p.phase && p.nodeName != "" then insert_key busy p.nodeName
          else busy) acc ↔
      nm ∈ acc ∨ ∃ p ∈ pods, p.nodeName = nm ∧ busy_phase p.phase = true ∧ nm ≠ "" := by
  induction pods generalizing acc with
  | nil => simp
  | cons p pods ih =>
    simp only [List.foldl_cons, ih]
    by_cases hc : (busy_phase p.phase && p.nodeName != "") = true
    · rw [if_pos hc, insert_key_mem]
      simp only [Bool.and_eq_true, bne_iff_ne] at hc
      constructor
      · rintro ((h | rfl) | h)
        · exact Or.inl h
        · exact Or.inr ⟨p, List.mem_cons_self _ _, rfl, hc.1, hc.2⟩
        · obtain ⟨q, hq, hP⟩ := h
          exact Or.inr ⟨q, List.mem_cons_of_mem _ hq, hP⟩
      · rintro (h | ⟨q, hq, hP⟩)
        · exact Or.inl (Or.inl h)
        · rcases List.mem_cons.mp hq with rfl | hq2
          · exact Or.inl (Or.inr hP.1.symm)
          · exact Or.inr ⟨q, hq2, hP⟩
    · rw [if_neg hc]
      simp only [Bool.and_eq_true, bne_iff_ne, not_and_or, Bool.not_eq_true] at hc
      constructor
      · rintro (h | ⟨q, hq, hP⟩)
        · exact Or.inl h
        · exact Or.inr ⟨q, List.mem_cons_of_mem _ hq, hP⟩
      · rintro (h | ⟨q, hq, hpn, hbp, hne⟩)
        · exact Or.inl h
        · rcases List.mem_cons.mp hq with rfl | hq2
          · rcases hc with hc | hc
            · rw [hbp] at hc
              cases hc
            · have h0 : q.nodeName = "" := not_not.mp hc
              rw [h0] at hpn
              exact absurd hpn.symm hne
          · exact Or.inr ⟨q, hq2, hpn, hbp, hne⟩

/-! ### Claim C7 -/

/-- Claim C7, as stated, is false on the code: a parsed (well-decoded)
response containing a node whose reported GPU capacity is not an integer
literal makes the node read raise `ValueError` — `int(capacity.get(...))`
at line 589 is outside the protection of the `except` clause at line 619,
which catches only `json.JSONDecodeError` and `KeyError`. -/
theorem C7_counterexample :
    get_gpu_nodes (KubeQuery.ok [⟨"gpu-node-a", none, none, some "eight", []⟩])
      = .error PyError.valueError := by
  rfl

/-- Claim C7 (amended): both reads fail open to empty results on a
non-zero exit (which is also how a timeout surfaces) and on an undecodable
response, and the node read also succeeds whenever every reported GPU
capacity parses as an integer — but a decodable response with a
non-integer capacity raises instead of failing open; every node returned
has non-zero GPU capacity; and a pod marks a node busy exactly when its
phase is Running, Pending or ContainerCreating and it has a non-empty node
assignment. -/
theorem C7_fail_open (items : List NodeItem) (pods : List PodItem) (nm : String) :
    get_gpu_nodes KubeQuery.exitError = .ok [] ∧
    get_gpu_nodes KubeQuery.decodeError = .ok [] ∧
    (∀ l, get_gpu_nodes (KubeQuery.ok items) = .ok l → ∀ r ∈ l, r.gpu_count ≠ 0) ∧
    ((∀ item ∈ items, ∀ s, item.gpuCapacity = some s → (pyint s).isSome = true) →
      ∃ l, get_gpu_nodes (KubeQuery.ok items) = .ok l) ∧
    get_busy_nodes KubeQuery.exitError = [] ∧
    get_busy_nodes KubeQuery.decodeError = [] ∧
    (nm ∈ get_busy_nodes (KubeQuery.ok pods) ↔
      ∃ p ∈ pods, p.nodeName = nm ∧ busy_phase p.phase = true ∧ nm ≠ "") := by
  refine ⟨rfl, rfl, ?_, ?_, rfl, rfl, ?_⟩
  · exact fun l h => gpu_nodes_nonzero items l h
  · exact fun h => gpu_nodes_ok_of_parsable items h
  · simpa [get_busy_nodes] using busy_fold_mem pods [] nm

/-- Witness for C7 at a concrete input: a well-formed two-node, two-pod
response. -/
theorem C7_fail_open_witness :
    (∀ l, get_gpu_nodes (KubeQuery.ok
        [⟨"node-a", some "ml.p5.48xlarge", none, some "8", [("Ready", "True")]⟩,
         ⟨"node-b", none, none, some "0", []⟩]) = .ok l → ∀ r ∈ l, r.gpu_count ≠ 0) ∧
    (∃ l, get_gpu_nodes (KubeQuery.ok
        [⟨"node-a", some "ml.p5.48xlarge", none, some "8", [("Ready", "True")]⟩,
         ⟨"node-b", none, none, some "0", []⟩]) = .ok l) ∧
    ("node-a" ∈ get_busy_nodes (KubeQuery.ok
        [⟨"Running", "node-a"⟩, ⟨"Succeeded", "node-b"⟩]) ↔
      ∃ p ∈ ([⟨"Running", "node-a"⟩, ⟨"Succeeded", "node-b"⟩] : List PodItem),
        p.nodeName = "node-a" ∧ busy_phase p.phase = true ∧ "node-a" ≠ "") := by
  have h := C7_fail_open
    [⟨"node-a", some "ml.p5.48xlarge", none, some "8", [("Ready", "True")]⟩,
     ⟨"node-b", none, none, some "0", []⟩]
    [⟨"Running", "node-a"⟩, ⟨"Succeeded", "node-b"⟩] "node-a"
  exact ⟨h.2.2.1, h.2.2.2.1 (by decide), h.2.2.2.2.2.2⟩

/-! ### Claims C8, C9 -/

/-- Claim C8, as stated, is false on the code: with the plan of two
batches of sizes 4 and 2 where only the first submission succeeds,
`_auto_occupy` returns 6 — the total planned node count — while the
number of nodes in successfully submitted batches is 4, and the patrol
cycle therefore adds 6 to the running total, not 4. -/
theorem C8_counterexample :
    auto_occupy_return [(4, "ml.p5.48xlarge"), (2, "ml.p5.48xlarge")] [true, false] = 6 ∧
    successfully_occupied [(4, "ml.p5.48xlarge"), (2, "ml.p5.48xlarge")] [true, false] = 4 ∧
    (patrol_step ⟨0, 0⟩ (CycleOutcome.occupied
      (auto_occupy_return [(4, "ml.p5.48xlarge"), (2, "ml.p5.48xlarge")]
        [true, false]))).total_occupied = 6 ∧
    (6 : Nat) ≠ 4 := by
  refine ⟨rfl, rfl, rfl, by decide⟩

/-- Claim C8 (amended): with one submission outcome per planned batch, the
amount a patrol cycle adds to the running total equals the whole planned
node count of the cycle when at least one batch submission succeeded, and
0 when every submission failed — not the per-successful-batch sum. -/
theorem C8_patrol_counter (s : PatrolState) (plan : List (Nat × String))
    (results : List Bool) (_hlen : results.length = plan.length) :
    (patrol_step s (CycleOutcome.occupied (auto_occupy_return plan results))).total_occupied
      = s.total_occupied +
        (if results.any id then (plan.map Prod.fst).sum else 0) ∧
    (results.all (fun b => !b) →
      (patrol_step s (CycleOutcome.occupied (auto_occupy_return plan results))).total_occupied
        = s.total_occupied) := by
  have hcount : (0 < results.count true) ↔ results.any id := by
    rw [List.count_pos_iff]
    simp [List.any_eq_true]
  constructor
  · by_cases hany : results.any id
    · have hpos : 0 < results.count true := hcount.mpr hany
      simp only [patrol_step, auto_occupy_return, if_pos hpos, if_pos hany]
      by_cases hsum : 0 < (plan.map Prod.fst).sum
      · rw [if_pos hsum]
      · rw [if_neg hsum]
        omega
    · have hpos : ¬ 0 < results.count true := fun hp => hany (hcount.mp hp)
      simp only [patrol_step, auto_occupy_return, if_neg hpos, if_neg hany]
      simp
  · intro hall
    have hnone : ¬ results.any id := by
      rw [List.any_eq_true]
      rintro ⟨b, hb, hbt⟩
      have := List.all_eq_true.mp hall b hb
      simp at hbt
      rw [hbt] at this
      simp at this
    have hpos : ¬ 0 < results.count true := fun hp => hnone (hcount.mp hp)
    have hret : auto_occupy_return plan results = 0 := by
      simp only [auto_occupy_return, if_neg hpos]
    rw [hret]
    simp [patrol_step]

/-- Witness for C8 (amended) at the counterexample input. -/
theorem C8_patrol_counter_witness :
    (patrol_step ⟨0, 0⟩ (CycleOutcome.occupied (auto_occupy_return
        [(4, "ml.p5.48xlarge"), (2, "ml.p5.48xlarge")] [true, false]))).total_occupied
      = (0 : Nat) +
        (if ([true, false]).any id
          then (([(4, "ml.p5.48xlarge"), (2, "ml.p5.48xlarge")] :
            List (Nat × String)).map Prod.fst).sum else 0) ∧
    (([true, false]).all (fun b => !b) →
      (patrol_step ⟨0, 0⟩ (CycleOutcome.occupied (auto_occupy_return
          [(4, "ml.p5.48xlarge"), (2, "ml.p5.48xlarge")] [true, false]))).total_occupied
        = (0 : Nat)) :=
  C8_patrol_counter ⟨0, 0⟩ [(4, "ml.p5.48xlarge"), (2, "ml.p5.48xlarge")]
    [true, false] (by decide)

/-- Claim C9: every cycle of the trace is processed — a raising cycle does
not shorten the run, the loop reaches the sleep phase and next cycle after
it; a raising cycle leaves the cumulative counter untouched; and the final
report after the operator interrupt carries the total number of cycles and
the sum of the per-cycle contributions (raising cycles contributing 0). -/
theorem C9_patrol_resilience (trace : List CycleOutcome) (s : PatrolState) :
    (patrol_run trace).round_num = trace.length ∧
    (patrol_run trace).total_occupied = (trace.map cycle_added).sum ∧
    patrol_step s CycleOutcome.raised = ⟨s.round_num + 1, s.total_occupied⟩ := by
  have main : ∀ (t : List CycleOutcome) (st : PatrolState),
      t.foldl patrol_step st =
        ⟨st.round_num + t.length, st.total_occupied + (t.map cycle_added).sum⟩ := by
    intro t
    induction t with
    | nil => intro st; simp
    | cons c t ih =>
      intro st
      rw [List.foldl_cons, ih]
      have hstep : (patrol_step st c).round_num = st.round_num + 1 := rfl
      have hadd : (patrol_step st c).total_occupied = st.total_occupied + cycle_added c := by
        cases c with
        | raised => simp [patrol_step, cycle_added]
        | noFree => simp [patrol_step, cycle_added]
        | occupied n =>
          simp only [patrol_step, cycle_added]
          by_cases hn : n > 0
          · rw [if_pos hn]
          · rw [if_neg hn]
            omega
      rw [hstep, hadd]
      simp only [List.length_cons, List.map_cons, List.sum_cons]
      congr 1 <;> omega
  refine ⟨?_, ?_, rfl⟩
  · rw [patrol_run, main]
    simp
  · rw [patrol_run, main]
    simp

end Qytool
